import Mathlib

/-!
Verification of the Work-Item Acquisition & Dispatch Ledger core of the
autonomous-ai-workforce-platform repository.

The durable core of the repository is the SQL schema
`src/database/schema/001_initial_schema.sql`: tables (`agents`,
`discovered_jobs`, `proposals`, `active_jobs`, `earnings`, `costs`,
`rate_limit_counters`), the trigger function
`update_agent_stats_on_job_complete`, and the views `job_queue`,
`agent_performance_summary` and `daily_earnings_report`.  Those are embedded
here directly.  Application-level operations (ingest upsert, proposal
acceptance cascade, progress updates, the rate limiter, ledger recording)
are not present in the repository source; following the specification they
are modelled from the spec, and each such definition is marked
`Modelled from the spec:` in its doc comment.

Conventions of the embedding:
* `DECIMAL` money amounts are integers in cents; `DECIMAL(5,4)` scores are
  integers scaled by 10000.
* `TIMESTAMPTZ` values are natural numbers (seconds since epoch);
  `DATE(ts)` is `ts / 86400`.
* `UUID` keys are natural numbers.
* Nullable columns are `Option` types.
* A SQL table is a Lean `List` of a record type; columns not read or
  written by any modelled operation or view (raw payloads, ML embeddings,
  client metadata, free-text) are omitted from the record types.
* A database trigger and the statement that fires it are one Lean
  function (one atomic unit of work); a fallible operation returns
  `Except e σ`, so an error leaves the caller's state untouched by
  construction.
-/

/-- The `job_status` enum of the schema. -/
inductive JobStatus
  | discovered
  | scored
  | queued
  | applied
  | interviewing
  | won
  | in_progress
  | delivered
  | completed
  | rejected
  | expired
  | cancelled
  | disputed
deriving DecidableEq, Repr, Fintype

/-- The `proposal_status` enum of the schema. -/
inductive ProposalStatus
  | draft
  | submitted
  | viewed
  | shortlisted
  | accepted
  | rejected
  | withdrawn
deriving DecidableEq, Repr

/-- The `payment_status` enum of the schema. -/
inductive PaymentStatus
  | pending
  | processing
  | completed
  | disputed
  | refunded
  | cancelled
deriving DecidableEq, Repr

/-- The `agent_status` enum of the schema. -/
inductive AgentStatus
  | active
  | paused
  | suspended
  | training
  | retired
deriving DecidableEq, Repr

/-- A row of the `agents` table (the Worker entity); the columns used by
the trigger `update_agent_stats_on_job_complete` and the view
`agent_performance_summary`. -/
structure Agent where
  id : Nat
  name : String
  status : AgentStatus
  total_earnings : Int
  jobs_completed : Nat
  jobs_failed : Nat
  success_rate : Int
  average_rating : Int
  last_active_at : Option Nat
  is_deleted : Bool
deriving DecidableEq, Repr

/-- A row of the `discovered_jobs` table (the WorkItem entity); the columns
used by the `job_queue` view, the ingest upsert and the state machine. -/
structure DiscoveredJob where
  id : Nat
  platform : String
  platform_job_id : String
  title : String
  budget_min : Option Int
  budget_max : Option Int
  skills_required : List String
  score : Option Int
  status : JobStatus
  assigned_agent_id : Option Nat
  discovered_at : Nat
  expires_at : Option Nat
deriving DecidableEq, Repr

/-- A row of the `proposals` table. -/
structure Proposal where
  id : Nat
  job_id : Nat
  agent_id : Nat
  bid_amount : Int
  status : ProposalStatus
deriving DecidableEq, Repr

/-- A row of the `active_jobs` table (the Contract entity). -/
structure ActiveJob where
  id : Nat
  discovered_job_id : Nat
  agent_id : Nat
  proposal_id : Option Nat
  agreed_amount : Int
  progress_percentage : Int
  revision_count : Nat
  max_revisions : Nat
  status : JobStatus
deriving DecidableEq, Repr

/-- A row of the `earnings` table (the earning kind of LedgerEntry). -/
structure Earning where
  id : Nat
  agent_id : Nat
  active_job_id : Option Nat
  platform : String
  gross_amount : Int
  platform_fee : Int
  processing_fee : Int
  net_amount : Int
  currency : String
  status : PaymentStatus
  earned_at : Option Nat
deriving DecidableEq, Repr

/-- A row of the `costs` table (the cost kind of LedgerEntry). -/
structure Cost where
  id : Nat
  agent_id : Option Nat
  active_job_id : Option Nat
  cost_type : String
  total_amount : Int
  currency : String
  incurred_at : Nat
deriving DecidableEq, Repr

/-- A row of the `rate_limit_counters` table. -/
structure RateCounter where
  scope_type : String
  scope_id : String
  limit_type : String
  counter : Nat
  window_start : Nat
  window_end : Nat
deriving DecidableEq, Repr

/-! ## The `job_queue` view (dispatch queue) -/

/-- The WHERE clause of the `job_queue` view: status IN
('discovered', 'scored', 'queued') AND (expires_at IS NULL OR
expires_at > NOW()). -/
def jobEligible (now : Nat) (j : DiscoveredJob) : Bool :=
  decide (j.status = JobStatus.discovered ∨ j.status = JobStatus.scored ∨
    j.status = JobStatus.queued) &&
  (match j.expires_at with
   | none => true
   | some e => decide (now < e))

/-- The ORDER BY clause of the `job_queue` view as a total boolean
relation: score DESC NULLS LAST, then discovered_at DESC. -/
def jobBefore (a b : DiscoveredJob) : Bool :=
  match a.score, b.score with
  | some x, some y =>
      decide (y < x ∨ (x = y ∧ b.discovered_at ≤ a.discovered_at))
  | some _, none => true
  | none, some _ => false
  | none, none => decide (b.discovered_at ≤ a.discovered_at)

/-- `jobBefore` as a relation, for sorting. -/
def jobRel (a b : DiscoveredJob) : Prop := jobBefore a b = true

instance : DecidableRel jobRel := fun a b => by
  unfold jobRel; infer_instance

instance : IsTotal DiscoveredJob jobRel := by
  constructor
  intro a b
  unfold jobRel jobBefore
  cases a.score <;> cases b.score <;> simp <;> omega

instance : IsTrans DiscoveredJob jobRel := by
  constructor
  intro a b c
  unfold jobRel jobBefore
  cases a.score <;> cases b.score <;> cases c.score <;> simp <;> omega

/-- The derived `our_proposals_count` column of the `job_queue` view. -/
def our_proposals_count (proposals : List Proposal) (j : DiscoveredJob) : Nat :=
  (proposals.filter (fun p => p.job_id = j.id)).length

/-- The `job_queue` view: each eligible `discovered_jobs` row paired with
its proposal count, ordered by score DESC NULLS LAST, discovered_at
DESC. -/
def job_queue (now : Nat) (jobs : List DiscoveredJob)
    (proposals : List Proposal) : List (DiscoveredJob × Nat) :=
  ((jobs.filter (jobEligible now)).insertionSort jobRel).map
    (fun j => (j, our_proposals_count proposals j))

/-- `listEligible` of the spec: the WorkItem rows of the `job_queue`
view. -/
def listEligible (now : Nat) (jobs : List DiscoveredJob)
    (proposals : List Proposal) : List DiscoveredJob :=
  (job_queue now jobs proposals).map Prod.fst

/-! ## The `update_agent_stats_on_job_complete` trigger -/

/-- The row-level effect of the trigger function
`update_agent_stats_on_job_complete` on the matching `agents` row, given
OLD.status and NEW.status of the updated `active_jobs` row. -/
def agentStatsApply (oldStatus newStatus : JobStatus) (now : Nat)
    (a : Agent) : Agent :=
  if newStatus = JobStatus.completed ∧ oldStatus ≠ JobStatus.completed then
    { a with jobs_completed := a.jobs_completed + 1, last_active_at := some now }
  else if (newStatus = JobStatus.cancelled ∨ newStatus = JobStatus.disputed) ∧
      oldStatus = JobStatus.in_progress then
    { a with jobs_failed := a.jobs_failed + 1 }
  else a

/-- The trigger function `update_agent_stats_on_job_complete`: the UPDATE
on `agents` restricted to `id = NEW.agent_id`, applied to the whole
`agents` table. -/
def update_agent_stats_on_job_complete (oldStatus newStatus : JobStatus)
    (agentId : Nat) (now : Nat) (agents : List Agent) : List Agent :=
  agents.map (fun a =>
    if a.id = agentId then agentStatsApply oldStatus newStatus now a else a)

/-- An UPDATE of an `active_jobs` row's status together with the AFTER
UPDATE trigger `trigger_update_agent_stats`, as one atomic unit. -/
def updateActiveJobStatus (jobId : Nat) (newStatus : JobStatus) (now : Nat)
    (active_jobs : List ActiveJob) (agents : List Agent) :
    List ActiveJob × List Agent :=
  match active_jobs.find? (fun j => j.id = jobId) with
  | none => (active_jobs, agents)
  | some oldRow =>
      (active_jobs.map (fun j =>
        if j.id = jobId then { j with status := newStatus } else j),
       update_agent_stats_on_job_complete oldRow.status newStatus
         oldRow.agent_id now agents)

/-! ## The `agent_performance_summary` view -/

/-- A row of the `agent_performance_summary` view. -/
structure PerformanceSummaryRow where
  id : Nat
  name : String
  status : AgentStatus
  total_earnings : Int
  jobs_completed : Nat
  jobs_failed : Nat
  success_rate : Int
  average_rating : Int
  active_jobs : Nat
  pending_proposals : Nat
  total_costs : Option Int
  net_profit : Int
deriving DecidableEq, Repr

/-- The SUM(c.total_amount) subquery of the view over the costs of one
agent; `none` models SQL NULL on an empty set. -/
def agentCostSum (costs : List Cost) (agentId : Nat) : Option Int :=
  let mine := costs.filter (fun c => c.agent_id = some agentId)
  if mine.isEmpty then none else some ((mine.map Cost.total_amount).sum)

/-- The `agent_performance_summary` view row for one (non-deleted)
`agents` row: `net_profit` is `total_earnings - COALESCE(SUM(costs), 0)`. -/
def performanceSummaryRow (a : Agent) (active_jobs : List ActiveJob)
    (proposals : List Proposal) (costs : List Cost) : PerformanceSummaryRow :=
  { id := a.id
    name := a.name
    status := a.status
    total_earnings := a.total_earnings
    jobs_completed := a.jobs_completed
    jobs_failed := a.jobs_failed
    success_rate := a.success_rate
    average_rating := a.average_rating
    active_jobs := (active_jobs.filter (fun j =>
      j.agent_id = a.id ∧ j.status = JobStatus.in_progress)).length
    pending_proposals := (proposals.filter (fun p =>
      p.agent_id = a.id ∧ p.status = ProposalStatus.submitted)).length
    total_costs := agentCostSum costs a.id
    net_profit := a.total_earnings -
      (agentCostSum costs a.id).getD 0 }

/-- The `agent_performance_summary` view: one row per non-deleted agent. -/
def agent_performance_summary (agents : List Agent)
    (active_jobs : List ActiveJob) (proposals : List Proposal)
    (costs : List Cost) : List PerformanceSummaryRow :=
  (agents.filter (fun a => !a.is_deleted)).map
    (fun a => performanceSummaryRow a active_jobs proposals costs)

/-! ## The `daily_earnings_report` view -/

/-- A row of the `daily_earnings_report` view. -/
structure ReportRow where
  date : Option Nat
  platform : String
  transaction_count : Nat
  gross_earnings : Int
  platform_fees : Int
  net_earnings : Int
deriving DecidableEq, Repr

/-- `DATE(e.earned_at)`, null when `earned_at` is null. -/
def dateOf (e : Earning) : Option Nat := e.earned_at.map (· / 86400)

/-- ORDER BY date DESC, platform for the report's group keys (null dates
first, as DESC puts NULLS FIRST). -/
def reportKeyBefore (a b : Option Nat × String) : Bool :=
  match a.1, b.1 with
  | none, none => decide (a.2 ≤ b.2)
  | none, some _ => true
  | some _, none => false
  | some x, some y => if x = y then decide (a.2 ≤ b.2) else decide (y < x)

/-- `reportKeyBefore` as a relation, for sorting. -/
def reportKeyRel (a b : Option Nat × String) : Prop :=
  reportKeyBefore a b = true

instance : DecidableRel reportKeyRel := fun a b => by
  unfold reportKeyRel; infer_instance

/-- The `daily_earnings_report` view: earnings WHERE status = 'completed',
grouped by (DATE(earned_at), platform) with COUNT and SUMs, ordered by
date DESC, platform. -/
def daily_earnings_report (es : List Earning) : List ReportRow :=
  let rows := es.filter (fun e => e.status = PaymentStatus.completed)
  let keys := ((rows.map (fun e => (dateOf e, e.platform))).dedup).insertionSort
    reportKeyRel
  keys.map (fun k =>
    let grp := rows.filter (fun e => dateOf e = k.1 ∧ e.platform = k.2)
    { date := k.1
      platform := k.2
      transaction_count := grp.length
      gross_earnings := (grp.map Earning.gross_amount).sum
      platform_fees := (grp.map Earning.platform_fee).sum
      net_earnings := (grp.map Earning.net_amount).sum })

/-! ## Spec-modelled operations (not present in the repository source) -/

/-- The error taxonomy of the spec (section 7). -/
inductive CoreError
  | InvalidTransition
  | RegressionNotAllowed
  | RevisionLimitExceeded
  | RateLimitExceeded
  | DuplicateKey
  | InvalidLedgerAmount
  | NotFound
deriving DecidableEq, Repr

/-- Terminal Proposal statuses per the spec: accepted, rejected,
withdrawn. -/
def proposalTerminal (s : ProposalStatus) : Bool :=
  decide (s = ProposalStatus.accepted ∨ s = ProposalStatus.rejected ∨
    s = ProposalStatus.withdrawn)

/-- The entity store acted on by the proposal-acceptance cascade. -/
structure WorkDB where
  jobs : List DiscoveredJob
  proposals : List Proposal
  active_jobs : List ActiveJob
  nextContractId : Nat
deriving DecidableEq, Repr

/-- Modelled from the spec: the State Machine Layer's transition of a
Proposal to `accepted` (section 4.1), absent from the repository source
(only the `proposals` and `active_jobs` table declarations exist).  In one
unit of work it marks the Proposal accepted, rejects every other
non-terminal Proposal of the same WorkItem, creates exactly one Contract
referencing the WorkItem and Worker, and moves the WorkItem to `won`
(assigning the worker).  Any failure returns an error and, the operation
being a pure function into `Except`, changes no entity. -/
def acceptProposal (pid : Nat) (db : WorkDB) : Except CoreError WorkDB :=
  match db.proposals.find? (fun p => p.id = pid) with
  | none => Except.error CoreError.NotFound
  | some p =>
      if proposalTerminal p.status then Except.error CoreError.InvalidTransition
      else match db.jobs.find? (fun j => j.id = p.job_id) with
        | none => Except.error CoreError.NotFound
        | some j =>
            Except.ok
              { jobs := db.jobs.map (fun x =>
                  if x.id = j.id then
                    { x with status := JobStatus.won,
                             assigned_agent_id := some p.agent_id }
                  else x)
                proposals := db.proposals.map (fun q =>
                  if q.id = pid then { q with status := ProposalStatus.accepted }
                  else if q.job_id = p.job_id ∧ ¬ proposalTerminal q.status then
                    { q with status := ProposalStatus.rejected }
                  else q)
                active_jobs := db.active_jobs ++
                  [{ id := db.nextContractId
                     discovered_job_id := j.id
                     agent_id := p.agent_id
                     proposal_id := some pid
                     agreed_amount := p.bid_amount
                     progress_percentage := 0
                     revision_count := 0
                     max_revisions := 3
                     status := JobStatus.in_progress }]
                nextContractId := db.nextContractId + 1 }

/-! ## Spec-modelled ingestion upsert -/

/-- The payload handed to `ingest` by the ingestion collaborator. -/
structure IngestPayload where
  title : String
  budget_min : Option Int
  budget_max : Option Int
  skills_required : List String
  score : Option Int
  status : JobStatus
  discovered_at : Nat
deriving DecidableEq, Repr

/-- `created` or `updated`, the result tag of `ingest`. -/
inductive IngestResult
  | created
  | updated
deriving DecidableEq, Repr

/-- A WorkItem status before `applied` (the spec's "still pre-applied"). -/
def preApplied (s : JobStatus) : Bool :=
  decide (s = JobStatus.discovered ∨ s = JobStatus.scored ∨
    s = JobStatus.queued)

/-- Modelled from the spec: the merge of an ingest payload into a stored
`discovered_jobs` row with the same key (section 4.2), absent from the
repository source.  A payload whose source timestamp is strictly older
than the stored row's is a no-op; otherwise the mutable fields (budget,
score, skills, status if still pre-applied) are taken from the payload. -/
def mergeJob (p : IngestPayload) (j : DiscoveredJob) : DiscoveredJob :=
  if p.discovered_at < j.discovered_at then j
  else
    { j with budget_min := p.budget_min
             budget_max := p.budget_max
             skills_required := p.skills_required
             score := p.score
             status := if preApplied j.status then p.status else j.status
             discovered_at := p.discovered_at }

/-- Modelled from the spec: the ingestion upsert
`ingest(platform, platform_job_id, payload)` (section 4.2), absent from
the repository source (only the UNIQUE(platform, platform_job_id)
constraint exists).  A row matching the key is updated in place via
`mergeJob`; otherwise a fresh row is appended. -/
def ingest (platform platform_job_id : String) (p : IngestPayload)
    (nextId : Nat) (jobs : List DiscoveredJob) :
    IngestResult × List DiscoveredJob :=
  if jobs.any (fun j => j.platform = platform ∧
      j.platform_job_id = platform_job_id) then
    (IngestResult.updated,
     jobs.map (fun j =>
       if j.platform = platform ∧ j.platform_job_id = platform_job_id then
         mergeJob p j
       else j))
  else
    (IngestResult.created,
     jobs ++ [{ id := nextId
                platform := platform
                platform_job_id := platform_job_id
                title := p.title
                budget_min := p.budget_min
                budget_max := p.budget_max
                skills_required := p.skills_required
                score := p.score
                status := p.status
                assigned_agent_id := none
                discovered_at := p.discovered_at
                expires_at := none }])

/-- The number of stored WorkItems carrying a given deduplication key. -/
def keyCount (platform platform_job_id : String)
    (jobs : List DiscoveredJob) : Nat :=
  (jobs.filter (fun j => j.platform = platform ∧
    j.platform_job_id = platform_job_id)).length

/-! ## Spec-modelled rate limiter -/

/-- The key of a rate-limit scope: (scope type, scope id, limit type). -/
structure RateKey where
  scope_type : String
  scope_id : String
  limit_type : String
deriving DecidableEq, Repr

/-- `windowStart = floor(now / windowDuration) * windowDuration`
(spec section 4.3). -/
def windowStartOf (now windowDuration : Nat) : Nat :=
  now / windowDuration * windowDuration

/-- Whether a stored counter row belongs to the key and window, per the
UNIQUE(scope_type, scope_id, limit_type, window_start) constraint. -/
def matchesKey (k : RateKey) (ws : Nat) (c : RateCounter) : Bool :=
  decide (c.scope_type = k.scope_type ∧ c.scope_id = k.scope_id ∧
    c.limit_type = k.limit_type ∧ c.window_start = ws)

/-- The counter value stored for a key in a given window, 0 when no row
exists yet. -/
def currentCount (k : RateKey) (ws : Nat) (cs : List RateCounter) : Nat :=
  match cs.find? (matchesKey k ws) with
  | some c => c.counter
  | none => 0

/-- Increments the first row of the key and window (the UNIQUE constraint
keeps at most one), or creates the counter row at 1 on the first request
of a window. -/
def bumpCounter (k : RateKey) (ws we : Nat) :
    List RateCounter → List RateCounter
  | [] => [{ scope_type := k.scope_type, scope_id := k.scope_id,
             limit_type := k.limit_type, counter := 1,
             window_start := ws, window_end := we }]
  | c :: cs =>
      if matchesKey k ws c then { c with counter := c.counter + 1 } :: cs
      else c :: bumpCounter k ws we cs

/-- Modelled from the spec: the rate limiter
`checkAndIncrement(scopeType, scopeId, limitType, limit, windowDuration,
now)` (section 4.3), absent from the repository source (only the
`rate_limit_counters` table declaration exists).  Fixed window; under the
limit the counter is created or incremented and the remaining budget
returned; at or over the limit `RateLimitExceeded` is returned without
incrementing. -/
def checkAndIncrement (k : RateKey) (limit windowDuration now : Nat)
    (cs : List RateCounter) : Except CoreError (Nat × List RateCounter) :=
  let ws := windowStartOf now windowDuration
  let n := currentCount k ws cs
  if n < limit then
    Except.ok (limit - (n + 1), bumpCounter k ws (ws + windowDuration) cs)
  else
    Except.error CoreError.RateLimitExceeded

/-- Total wrapper of `checkAndIncrement`: the success flag and the
counters after the call (unchanged on `RateLimitExceeded`). -/
def rateStep (k : RateKey) (limit windowDuration now : Nat)
    (cs : List RateCounter) : Bool × List RateCounter :=
  match checkAndIncrement k limit windowDuration now cs with
  | Except.ok (_, cs2) => (true, cs2)
  | Except.error _ => (false, cs)

/-- Runs `rateStep` at each time of the list, returning the success flag
of each call. -/
def rateRun (k : RateKey) (limit windowDuration : Nat) (times : List Nat)
    (cs : List RateCounter) : List Bool × List RateCounter :=
  match times with
  | [] => ([], cs)
  | t :: ts =>
      let s := rateStep k limit windowDuration t cs
      let r := rateRun k limit windowDuration ts s.2
      (s.1 :: r.1, r.2)

/-! ## Spec-modelled progress updates -/

/-- Modelled from the spec: the Contract progress update of the State
Machine Layer (section 4.1), absent from the repository source (only the
`progress_percentage`, `revision_count` and `max_revisions` columns
exist).  Accepted only while the Contract is `in_progress`; a regression
requires a revision; a revision past `max_revisions` fails. -/
def updateProgress (newProgress : Int) (asRevision : Bool)
    (j : ActiveJob) : Except CoreError ActiveJob :=
  if j.status ≠ JobStatus.in_progress then
    Except.error CoreError.InvalidTransition
  else if asRevision then
    if j.max_revisions ≤ j.revision_count then
      Except.error CoreError.RevisionLimitExceeded
    else
      Except.ok { j with progress_percentage := newProgress,
                         revision_count := j.revision_count + 1 }
  else if newProgress < j.progress_percentage then
    Except.error CoreError.RegressionNotAllowed
  else
    Except.ok { j with progress_percentage := newProgress }

/-! ## Spec-modelled ledger recording and aggregation -/

/-- The ledger state of one Worker: the Worker row carrying the cached
`total_earnings` aggregate, the `earnings` and `costs` tables, and the id
counter. -/
structure LedgerDB where
  agent : Agent
  earnings : List Earning
  costs : List Cost
  nextId : Nat
deriving Repr

/-- Modelled from the spec:
`recordEarning(contract, grossAmount, platformFee, processingFee,
currency)` (section 4.4), absent from the repository source (only the
`earnings` table declaration exists).  `netAmount = grossAmount −
platformFee − processingFee` and must be ≥ 0, else the call fails with
`InvalidLedgerAmount`; the Stats Aggregator maintains the cached
`total_earnings` in the same unit of work. -/
def recordEarning (contractId : Option Nat) (grossAmount platformFee
    processingFee : Int) (currency : String) (platform : String)
    (earnedAt : Nat) (db : LedgerDB) : Except CoreError LedgerDB :=
  let netAmount := grossAmount - platformFee - processingFee
  if netAmount < 0 then Except.error CoreError.InvalidLedgerAmount
  else
    Except.ok
      { db with
        earnings := db.earnings ++
          [{ id := db.nextId
             agent_id := db.agent.id
             active_job_id := contractId
             platform := platform
             gross_amount := grossAmount
             platform_fee := platformFee
             processing_fee := processingFee
             net_amount := netAmount
             currency := currency
             status := PaymentStatus.completed
             earned_at := some earnedAt }]
        agent := { db.agent with
          total_earnings := db.agent.total_earnings + netAmount }
        nextId := db.nextId + 1 }

/-- Modelled from the spec:
`recordCost(worker|contract, category, amount, currency)` (section 4.4),
absent from the repository source (only the `costs` table declaration
exists). -/
def recordCost (contractId : Option Nat) (category : String)
    (amount : Int) (currency : String) (incurredAt : Nat)
    (db : LedgerDB) : LedgerDB :=
  { db with
    costs := db.costs ++
      [{ id := db.nextId
         agent_id := some db.agent.id
         active_job_id := contractId
         cost_type := category
         total_amount := amount
         currency := currency
         incurred_at := incurredAt }]
    nextId := db.nextId + 1 }

/-- One call of the interleaving of `recordEarning` and `recordCost`. -/
inductive LedgerOp
  | earn (contractId : Option Nat) (grossAmount platformFee
      processingFee : Int) (currency platform : String) (earnedAt : Nat)
  | cost (contractId : Option Nat) (category : String) (amount : Int)
      (currency : String) (incurredAt : Nat)

/-- Applies one ledger call; a failing `recordEarning` leaves the state
unchanged. -/
def applyLedgerOp (db : LedgerDB) (op : LedgerOp) : LedgerDB :=
  match op with
  | LedgerOp.earn c g pf prf cur pl t =>
      match recordEarning c g pf prf cur pl t db with
      | Except.ok db2 => db2
      | Except.error _ => db
  | LedgerOp.cost c cat amt cur t => recordCost c cat amt cur t db

/-- The fresh Worker ledger state: the `agents` row with the schema
defaults (`total_earnings` 0) and empty `earnings` and `costs` tables. -/
def initLedgerDB (agentId : Nat) (name : String) : LedgerDB :=
  { agent := { id := agentId, name := name, status := AgentStatus.active,
               total_earnings := 0, jobs_completed := 0, jobs_failed := 0,
               success_rate := 0, average_rating := 0,
               last_active_at := none, is_deleted := false }
    earnings := [], costs := [], nextId := 0 }

/-- Runs an interleaving of ledger calls from the fresh state. -/
def runLedgerOps (agentId : Nat) (name : String) (ops : List LedgerOp) :
    LedgerDB :=
  ops.foldl applyLedgerOp (initLedgerDB agentId name)

/-- A LedgerEntry as seen by the replay: its timestamp and its signed
contribution to net profit (an earning adds its net amount, a cost
subtracts its amount). -/
def ledgerStream (db : LedgerDB) : List (Nat × Int) :=
  db.earnings.map (fun e => (e.earned_at.getD 0, e.net_amount)) ++
    db.costs.map (fun c => (c.incurred_at, -c.total_amount))

/-- The Worker's LedgerEntries sorted by timestamp. -/
def ledgerStreamByTime (db : LedgerDB) : List (Nat × Int) :=
  (ledgerStream db).insertionSort (fun a b => a.1 ≤ b.1)

/-- Replays a LedgerEntry sequence in order, accumulating net profit. -/
def replayNetProfit (entries : List (Nat × Int)) : Int :=
  entries.foldl (fun acc e => acc + e.2) 0

/-! ## Spec-modelled WorkItem state machine -/

/-- Modelled from the spec: the WorkItem transition legality table
(section 4.1), absent from the repository source (only the `job_status`
enum exists): discovered→scored→queued→applied→interviewing→won→
in_progress→(delivered→completed | disputed); any pre-won state may also
go to rejected, expired or cancelled. -/
def wiLegal (source target : JobStatus) : Bool :=
  match source, target with
  | JobStatus.discovered, JobStatus.scored => true
  | JobStatus.scored, JobStatus.queued => true
  | JobStatus.queued, JobStatus.applied => true
  | JobStatus.applied, JobStatus.interviewing => true
  | JobStatus.interviewing, JobStatus.won => true
  | JobStatus.won, JobStatus.in_progress => true
  | JobStatus.in_progress, JobStatus.delivered => true
  | JobStatus.delivered, JobStatus.completed => true
  | JobStatus.in_progress, JobStatus.disputed => true
  | JobStatus.discovered, JobStatus.rejected => true
  | JobStatus.discovered, JobStatus.expired => true
  | JobStatus.discovered, JobStatus.cancelled => true
  | JobStatus.scored, JobStatus.rejected => true
  | JobStatus.scored, JobStatus.expired => true
  | JobStatus.scored, JobStatus.cancelled => true
  | JobStatus.queued, JobStatus.rejected => true
  | JobStatus.queued, JobStatus.expired => true
  | JobStatus.queued, JobStatus.cancelled => true
  | JobStatus.applied, JobStatus.rejected => true
  | JobStatus.applied, JobStatus.expired => true
  | JobStatus.applied, JobStatus.cancelled => true
  | JobStatus.interviewing, JobStatus.rejected => true
  | JobStatus.interviewing, JobStatus.expired => true
  | JobStatus.interviewing, JobStatus.cancelled => true
  | _, _ => false

/-- The statuses in which a WorkItem has an assigned worker:
won, in_progress, delivered, completed, disputed. -/
def isAssignedStatus (s : JobStatus) : Bool :=
  decide (s = JobStatus.won ∨ s = JobStatus.in_progress ∨
    s = JobStatus.delivered ∨ s = JobStatus.completed ∨
    s = JobStatus.disputed)

/-- The WorkItem invariant of the spec: `assigned_agent` is set iff the
status is one of the assigned statuses. -/
def wiInvariant (w : DiscoveredJob) : Bool :=
  w.assigned_agent_id.isSome = isAssignedStatus w.status

/-- The assigned-worker update of a WorkItem transition: the move to
`won` records the accepted Proposal's worker, any other move keeps the
current assignment. -/
def wiAssign (target : JobStatus) (actor : Nat) (cur : Option Nat) :
    Option Nat :=
  if target = JobStatus.won then some actor else cur

/-- Modelled from the spec: the State Machine Layer transition
`transition(entity, target_status, actor, timestamp)` for a WorkItem
(section 4.1), absent from the repository source.  An illegal transition
fails with `InvalidTransition` and changes nothing; the move to `won`
(part of the acceptance cascade) records the accepted Proposal's worker
as `assigned_agent`. -/
def wiTransition (target : JobStatus) (actor : Nat) (w : DiscoveredJob) :
    Except CoreError DiscoveredJob :=
  if wiLegal w.status target then
    Except.ok
      { w with status := target
               assigned_agent_id := wiAssign target actor w.assigned_agent_id }
  else
    Except.error CoreError.InvalidTransition

/-- The WorkItem states reachable by the system's operations: a freshly
ingested row (status `discovered`, no assigned worker) and every legal
transition from a reachable state. -/
inductive WiReachable : DiscoveredJob → Prop
  | init (w : DiscoveredJob) (h1 : w.status = JobStatus.discovered)
      (h2 : w.assigned_agent_id = none) : WiReachable w
  | step (w w2 : DiscoveredJob) (target : JobStatus) (actor : Nat)
      (h : WiReachable w) (h2 : wiTransition target actor w = Except.ok w2) :
      WiReachable w2

/-! # Theorems -/

/-- `listEligible` is the sorted filter of the stored WorkItems (the
proposal counts of the view do not affect the returned rows). -/
theorem listEligible_eq_sortedFilter (now : Nat) (jobs : List DiscoveredJob)
    (proposals : List Proposal) :
    listEligible now jobs proposals =
      (jobs.filter (jobEligible now)).insertionSort jobRel := by
  simp [listEligible, job_queue, List.map_map, Function.comp_def]

/-- The eligibility predicate of the `job_queue` view, spelled out. -/
theorem jobEligible_iff (now : Nat) (j : DiscoveredJob) :
    jobEligible now j = true ↔
      (j.status = JobStatus.discovered ∨ j.status = JobStatus.scored ∨
        j.status = JobStatus.queued) ∧
      (j.expires_at = none ∨ ∃ e, j.expires_at = some e ∧ now < e) := by
  unfold jobEligible
  cases h : j.expires_at <;> simp [h]

/-- C2: `listEligible` returns exactly the stored WorkItems whose status is
in the set (discovered, scored, queued) and whose `expires_at` is null or
strictly later than now, ordered by score descending with null scores last
and ties broken by `discovered_at` descending (the relation `jobRel`); for
items A(score 0.9, discovered t1), B(score 0.9, discovered t2 > t1),
C(score 0.7) the returned order is [B, A, C].  `listEligible` is a pure
function of its inputs, so the ordering is deterministic for identical
inputs. -/
theorem C2_listEligible_correct :
    (∀ (now : Nat) (jobs : List DiscoveredJob) (proposals : List Proposal)
        (j : DiscoveredJob),
      j ∈ listEligible now jobs proposals ↔
        j ∈ jobs ∧
        (j.status = JobStatus.discovered ∨ j.status = JobStatus.scored ∨
          j.status = JobStatus.queued) ∧
        (j.expires_at = none ∨ ∃ e, j.expires_at = some e ∧ now < e)) ∧
    (∀ (now : Nat) (jobs : List DiscoveredJob) (proposals : List Proposal),
      (listEligible now jobs proposals).Pairwise jobRel) ∧
    listEligible 0
      [{ id := 1, platform := "p", platform_job_id := "a", title := "A",
         budget_min := none, budget_max := none, skills_required := [],
         score := some 9000, status := JobStatus.scored,
         assigned_agent_id := none, discovered_at := 1, expires_at := none },
       { id := 2, platform := "p", platform_job_id := "b", title := "B",
         budget_min := none, budget_max := none, skills_required := [],
         score := some 9000, status := JobStatus.scored,
         assigned_agent_id := none, discovered_at := 2, expires_at := none },
       { id := 3, platform := "p", platform_job_id := "c", title := "C",
         budget_min := none, budget_max := none, skills_required := [],
         score := some 7000, status := JobStatus.scored,
         assigned_agent_id := none, discovered_at := 1, expires_at := none }] []
    = [{ id := 2, platform := "p", platform_job_id := "b", title := "B",
         budget_min := none, budget_max := none, skills_required := [],
         score := some 9000, status := JobStatus.scored,
         assigned_agent_id := none, discovered_at := 2, expires_at := none },
       { id := 1, platform := "p", platform_job_id := "a", title := "A",
         budget_min := none, budget_max := none, skills_required := [],
         score := some 9000, status := JobStatus.scored,
         assigned_agent_id := none, discovered_at := 1, expires_at := none },
       { id := 3, platform := "p", platform_job_id := "c", title := "C",
         budget_min := none, budget_max := none, skills_required := [],
         score := some 7000, status := JobStatus.scored,
         assigned_agent_id := none, discovered_at := 1, expires_at := none }] := by
  refine ⟨?_, ?_, ?_⟩
  · intro now jobs proposals j
    rw [listEligible_eq_sortedFilter, List.mem_insertionSort, List.mem_filter]
    exact and_congr_right (fun _ => jobEligible_iff now j)
  · intro now jobs proposals
    rw [listEligible_eq_sortedFilter]
    exact List.sorted_insertionSort jobRel _
  · decide

/-- C4: for every Contract status update, the trigger
`update_agent_stats_on_job_complete` increments the owning Worker's
`jobs_completed` and sets `last_active_at` exactly when the new status is
completed and the old one is not; increments `jobs_failed` exactly when
the new status is cancelled or disputed and the old one is in_progress;
changes nothing otherwise; and never touches a Worker with a different id.
The trigger fires inside `updateActiveJobStatus`, the single atomic unit
that also writes the Contract row. -/
theorem C4_contract_stats_update (oldStatus newStatus : JobStatus)
    (now : Nat) (a : Agent) :
    (newStatus = JobStatus.completed → oldStatus ≠ JobStatus.completed →
      agentStatsApply oldStatus newStatus now a =
        { a with jobs_completed := a.jobs_completed + 1,
                 last_active_at := some now }) ∧
    ((newStatus = JobStatus.cancelled ∨ newStatus = JobStatus.disputed) →
      oldStatus = JobStatus.in_progress →
      agentStatsApply oldStatus newStatus now a =
        { a with jobs_failed := a.jobs_failed + 1 }) ∧
    (¬ (newStatus = JobStatus.completed ∧ oldStatus ≠ JobStatus.completed) →
      ¬ ((newStatus = JobStatus.cancelled ∨ newStatus = JobStatus.disputed) ∧
        oldStatus = JobStatus.in_progress) →
      agentStatsApply oldStatus newStatus now a = a) ∧
    (∀ (agents : List Agent) (agentId : Nat), a ∈ agents → a.id ≠ agentId →
      a ∈ update_agent_stats_on_job_complete oldStatus newStatus agentId now
        agents) := by
  refine ⟨?_, ?_, ?_, ?_⟩
  · intro h1 h2
    unfold agentStatsApply
    rw [if_pos ⟨h1, h2⟩]
  · intro h1 h2
    have hne : ¬ (newStatus = JobStatus.completed ∧
        oldStatus ≠ JobStatus.completed) := by
      rcases h1 with h | h <;> subst h <;> simp
    unfold agentStatsApply
    rw [if_neg hne, if_pos ⟨h1, h2⟩]
  · intro h1 h2
    unfold agentStatsApply
    rw [if_neg h1, if_neg h2]
  · intro agents agentId hmem hne
    unfold update_agent_stats_on_job_complete
    have : (if a.id = agentId then agentStatsApply oldStatus newStatus now a
        else a) = a := by rw [if_neg hne]
    exact this ▸ List.mem_map_of_mem _ hmem

/-- Witness for C4 at concrete inputs: a completion from `in_progress`
increments `jobs_completed` from 2 to 3 and stamps `last_active_at`. -/
theorem C4_contract_stats_update_witness :
    agentStatsApply JobStatus.in_progress JobStatus.completed 5
      { id := 1, name := "w", status := AgentStatus.active,
        total_earnings := 0, jobs_completed := 2, jobs_failed := 1,
        success_rate := 0, average_rating := 0, last_active_at := none,
        is_deleted := false } =
      { id := 1, name := "w", status := AgentStatus.active,
        total_earnings := 0, jobs_completed := 3, jobs_failed := 1,
        success_rate := 0, average_rating := 0, last_active_at := some 5,
        is_deleted := false } := by
  exact (C4_contract_stats_update JobStatus.in_progress JobStatus.completed 5
    { id := 1, name := "w", status := AgentStatus.active,
      total_earnings := 0, jobs_completed := 2, jobs_failed := 1,
      success_rate := 0, average_rating := 0, last_active_at := none,
      is_deleted := false }).1 rfl (by decide)

/-- C10: the `daily_earnings_report` view aggregates only earnings whose
payment status is completed: an earning in any other status (pending,
processing, disputed, refunded, cancelled) contributes to no row of the
report, and the report of a table equals the report of its completed
subset.  The concrete instance shows a pending earning dropped from the
aggregation. -/
theorem C10_report_only_completed :
    (∀ (es : List Earning) (e : Earning),
      e.status ≠ PaymentStatus.completed →
      daily_earnings_report (e :: es) = daily_earnings_report es) ∧
    (∀ es : List Earning,
      daily_earnings_report es =
        daily_earnings_report
          (es.filter (fun e => e.status = PaymentStatus.completed))) ∧
    daily_earnings_report
      [{ id := 0, agent_id := 1, active_job_id := none, platform := "up",
         gross_amount := 100, platform_fee := 10, processing_fee := 5,
         net_amount := 85, currency := "USD",
         status := PaymentStatus.completed, earned_at := some 100 },
       { id := 1, agent_id := 1, active_job_id := none, platform := "up",
         gross_amount := 50, platform_fee := 5, processing_fee := 0,
         net_amount := 45, currency := "USD",
         status := PaymentStatus.pending, earned_at := some 100 }]
    = [{ date := some 0, platform := "up", transaction_count := 1,
         gross_earnings := 100, platform_fees := 10,
         net_earnings := 85 }] := by
  refine ⟨?_, ?_, ?_⟩
  · intro es e h
    have hd : decide (e.status = PaymentStatus.completed) = false :=
      decide_eq_false h
    unfold daily_earnings_report
    rw [List.filter_cons_of_neg (by simp [hd])]
  · intro es
    unfold daily_earnings_report
    rw [List.filter_filter]
    simp
  · decide

/-- Witness for C10 at a concrete input: a disputed earning leaves the
(empty) report unchanged. -/
theorem C10_report_only_completed_witness :
    daily_earnings_report
      [{ id := 7, agent_id := 1, active_job_id := none, platform := "up",
         gross_amount := 30, platform_fee := 3, processing_fee := 0,
         net_amount := 27, currency := "USD",
         status := PaymentStatus.disputed, earned_at := some 50 }] = [] := by
  rw [C10_report_only_completed.1 []
    { id := 7, agent_id := 1, active_job_id := none, platform := "up",
      gross_amount := 30, platform_fee := 3, processing_fee := 0,
      net_amount := 27, currency := "USD",
      status := PaymentStatus.disputed, earned_at := some 50 } (by decide)]
  decide

/-- Bumping a key's counter raises that key's stored count by exactly
one. -/
theorem currentCount_bumpCounter (k : RateKey) (ws we : Nat)
    (cs : List RateCounter) :
    currentCount k ws (bumpCounter k ws we cs) =
      currentCount k ws cs + 1 := by
  induction cs with
  | nil => simp [currentCount, bumpCounter, List.find?, matchesKey]
  | cons c cs ih =>
      by_cases h : matchesKey k ws c = true
      · have h2 : matchesKey k ws { c with counter := c.counter + 1 } = true := by
          simpa [matchesKey] using h
        simp [currentCount, bumpCounter, h, List.find?_cons_of_pos, h2]
      · have h3 : matchesKey k ws c = false := by
          simpa using h
        simp only [bumpCounter, h3, Bool.false_eq_true, if_false]
        unfold currentCount
        rw [List.find?_cons_of_neg _ (by simp [h3]),
          List.find?_cons_of_neg _ (by simp [h3])]
        exact ih

/-- C5: fixed-window rate limiting by `checkAndIncrement`: while the
stored count of the key's current window (`windowStart =
floor(now / W) * W`) is under the limit, the call succeeds and raises the
count by one (creating the counter row on the first call of a window);
once the count reaches the limit, the call returns `RateLimitExceeded`
and leaves the counters untouched; concretely, with limit 3 and a 60s
window, calls at t = 0, 1, 2 succeed, the call at t = 3 fails, and the
call at t = 60 (the next window) succeeds again. -/
theorem C5_rate_limiter (k : RateKey) (limit windowDuration now : Nat)
    (cs : List RateCounter) :
    (currentCount k (windowStartOf now windowDuration) cs < limit →
      rateStep k limit windowDuration now cs =
        (true, bumpCounter k (windowStartOf now windowDuration)
          (windowStartOf now windowDuration + windowDuration) cs) ∧
      currentCount k (windowStartOf now windowDuration)
        (rateStep k limit windowDuration now cs).2 =
        currentCount k (windowStartOf now windowDuration) cs + 1) ∧
    (limit ≤ currentCount k (windowStartOf now windowDuration) cs →
      checkAndIncrement k limit windowDuration now cs =
        Except.error CoreError.RateLimitExceeded ∧
      rateStep k limit windowDuration now cs = (false, cs)) ∧
    (rateRun (RateKey.mk "agent" "1" "proposals") 3 60
      [0, 1, 2, 3, 60] []).1 = [true, true, true, false, true] := by
  refine ⟨?_, ?_, by decide⟩
  · intro h
    have hstep : rateStep k limit windowDuration now cs =
        (true, bumpCounter k (windowStartOf now windowDuration)
          (windowStartOf now windowDuration + windowDuration) cs) := by
      simp only [rateStep, checkAndIncrement]
      rw [if_pos h]
    refine ⟨hstep, ?_⟩
    rw [hstep]
    exact currentCount_bumpCounter k _ _ cs
  · intro h
    have herr : checkAndIncrement k limit windowDuration now cs =
        Except.error CoreError.RateLimitExceeded := by
      simp only [checkAndIncrement]
      rw [if_neg (Nat.not_lt.mpr h)]
    exact ⟨herr, by simp only [rateStep, herr]⟩

/-- Witness for C5 at concrete inputs: with limit 1 the first call of a
window succeeds and creates the counter row, and a further call in the
same window is rejected without changing the counters. -/
theorem C5_rate_limiter_witness :
    rateStep (RateKey.mk "agent" "7" "proposals") 1 60 0 [] =
      (true, [RateCounter.mk "agent" "7" "proposals" 1 0 60]) ∧
    rateStep (RateKey.mk "agent" "7" "proposals") 1 60 30
      [RateCounter.mk "agent" "7" "proposals" 1 0 60] =
      (false, [RateCounter.mk "agent" "7" "proposals" 1 0 60]) := by
  constructor
  · exact ((C5_rate_limiter (RateKey.mk "agent" "7" "proposals") 1 60 0
      []).1 (by decide)).1.trans (by decide)
  · exact ((C5_rate_limiter (RateKey.mk "agent" "7" "proposals") 1 60 30
      [RateCounter.mk "agent" "7" "proposals" 1 0 60]).2.1 (by decide)).2

/-- C6: a `progress_percentage` update is accepted only while the
Contract is `in_progress`; a non-revision update below the current
progress is rejected with `RegressionNotAllowed` (the Contract is
unchanged, the operation returning only the error); a revision under the
`max_revisions` cap is accepted and increments `revision_count`; a
revision at the cap fails with `RevisionLimitExceeded`. -/
theorem C6_progress_update (p : Int) (asRevision : Bool) (j : ActiveJob) :
    (∀ j2, updateProgress p asRevision j = Except.ok j2 →
      j.status = JobStatus.in_progress) ∧
    (j.status = JobStatus.in_progress → asRevision = false →
      p < j.progress_percentage →
      updateProgress p asRevision j =
        Except.error CoreError.RegressionNotAllowed) ∧
    (j.status = JobStatus.in_progress → asRevision = true →
      j.revision_count < j.max_revisions →
      updateProgress p asRevision j =
        Except.ok { j with progress_percentage := p,
                           revision_count := j.revision_count + 1 }) ∧
    (j.status = JobStatus.in_progress → asRevision = true →
      j.max_revisions ≤ j.revision_count →
      updateProgress p asRevision j =
        Except.error CoreError.RevisionLimitExceeded) := by
  refine ⟨?_, ?_, ?_, ?_⟩
  · intro j2 h
    by_cases hs : j.status = JobStatus.in_progress
    · exact hs
    · simp only [updateProgress] at h
      rw [if_pos hs] at h
      cases h
  · intro h1 h2 h3
    simp only [updateProgress]
    rw [if_neg (by simp [h1]), h2]
    simp only [Bool.false_eq_true, if_false]
    rw [if_pos h3]
  · intro h1 h2 h3
    simp only [updateProgress]
    rw [if_neg (by simp [h1]), h2]
    simp only [if_true]
    rw [if_neg (by omega)]
  · intro h1 h2 h3
    simp only [updateProgress]
    rw [if_neg (by simp [h1]), h2]
    simp only [if_true]
    rw [if_pos h3]

/-- Witness for C6 at concrete inputs: a Contract at progress 50 rejects
a plain update to 40 with `RegressionNotAllowed`, and a 4th revision
against `max_revisions = 3` fails with `RevisionLimitExceeded`. -/
theorem C6_progress_update_witness :
    updateProgress 40 false
      { id := 1, discovered_job_id := 10, agent_id := 7,
        proposal_id := some 3, agreed_amount := 500,
        progress_percentage := 50, revision_count := 0, max_revisions := 3,
        status := JobStatus.in_progress } =
      Except.error CoreError.RegressionNotAllowed ∧
    updateProgress 40 true
      { id := 1, discovered_job_id := 10, agent_id := 7,
        proposal_id := some 3, agreed_amount := 500,
        progress_percentage := 50, revision_count := 3, max_revisions := 3,
        status := JobStatus.in_progress } =
      Except.error CoreError.RevisionLimitExceeded := by
  constructor
  · exact (C6_progress_update 40 false
      { id := 1, discovered_job_id := 10, agent_id := 7,
        proposal_id := some 3, agreed_amount := 500,
        progress_percentage := 50, revision_count := 0, max_revisions := 3,
        status := JobStatus.in_progress }).2.1 rfl rfl (by decide)
  · exact (C6_progress_update 40 true
      { id := 1, discovered_job_id := 10, agent_id := 7,
        proposal_id := some 3, agreed_amount := 500,
        progress_percentage := 50, revision_count := 3, max_revisions := 3,
        status := JobStatus.in_progress }).2.2.2 rfl rfl (by decide)

/-- C8: `recordEarning` creates a LedgerEntry whose `net_amount` is
`grossAmount − platformFee − processingFee`; when that difference is
negative the call fails with `InvalidLedgerAmount` and, returning only
the error, appends no LedgerEntry. -/
theorem C8_recordEarning_net (contractId : Option Nat) (g pf prf : Int)
    (cur pl : String) (t : Nat) (db : LedgerDB) :
    (∀ db2, recordEarning contractId g pf prf cur pl t db =
        Except.ok db2 →
      ∃ e, db2.earnings = db.earnings ++ [e] ∧
        e.net_amount = g - pf - prf ∧ e.gross_amount = g ∧
        e.platform_fee = pf ∧ e.processing_fee = prf ∧
        e.currency = cur) ∧
    (0 ≤ g - pf - prf →
      ∃ db2, recordEarning contractId g pf prf cur pl t db =
        Except.ok db2) ∧
    (g - pf - prf < 0 →
      recordEarning contractId g pf prf cur pl t db =
        Except.error CoreError.InvalidLedgerAmount) := by
  refine ⟨?_, ?_, ?_⟩
  · intro db2 h
    simp only [recordEarning] at h
    split_ifs at h with hn
    all_goals cases h
    exact ⟨_, rfl, rfl, rfl, rfl, rfl, rfl⟩
  · intro h
    cases hres : recordEarning contractId g pf prf cur pl t db with
    | error e =>
        exfalso
        simp only [recordEarning] at hres
        rw [if_neg (by omega)] at hres
        cases hres
    | ok db2 => exact ⟨db2, rfl⟩
  · intro h
    simp only [recordEarning]
    rw [if_pos h]

/-- Witness for C8 at concrete inputs: gross 100, platform fee 10,
processing fee 5 records successfully, while gross 10 with platform fee
20 fails with `InvalidLedgerAmount`. -/
theorem C8_recordEarning_net_witness :
    (∃ db2, recordEarning none 100 10 5 "USD" "up" 0
      (initLedgerDB 1 "w") = Except.ok db2) ∧
    recordEarning none 10 20 0 "USD" "up" 0 (initLedgerDB 1 "w") =
      Except.error CoreError.InvalidLedgerAmount := by
  constructor
  · exact (C8_recordEarning_net none 100 10 5 "USD" "up" 0
      (initLedgerDB 1 "w")).2.1 (by decide)
  · exact (C8_recordEarning_net none 10 20 0 "USD" "up" 0
      (initLedgerDB 1 "w")).2.2 (by decide)

/-- The ingest merge never changes the deduplication key of a stored
row. -/
theorem mergeJob_key (p : IngestPayload) (j : DiscoveredJob) :
    (mergeJob p j).platform = j.platform ∧
    (mergeJob p j).platform_job_id = j.platform_job_id := by
  unfold mergeJob
  split_ifs <;> exact ⟨rfl, rfl⟩

/-- A key-preserving row update leaves every key's multiplicity
unchanged. -/
theorem keyCount_map (pl pid : String) (f : DiscoveredJob → DiscoveredJob)
    (hf : ∀ j, (f j).platform = j.platform ∧
      (f j).platform_job_id = j.platform_job_id)
    (jobs : List DiscoveredJob) :
    keyCount pl pid (jobs.map f) = keyCount pl pid jobs := by
  induction jobs with
  | nil => rfl
  | cons j js ih =>
      unfold keyCount at ih ⊢
      simp only [List.map_cons]
      rw [List.filter_cons, List.filter_cons, (hf j).1, (hf j).2]
      split_ifs
      · simp only [List.length_cons]
        rw [ih]
      · exact ih

/-- `keyCount` distributes over append. -/
theorem keyCount_append (pl pid : String) (xs ys : List DiscoveredJob) :
    keyCount pl pid (xs ++ ys) = keyCount pl pid xs + keyCount pl pid ys := by
  simp [keyCount, List.filter_append]

/-- C3: ingest deduplication: when every deduplication key occurs at most
once, that stays true after any `ingest` call; an ingest whose key
matches a stored row reports `updated` and never grows the table (it
updates in place); and an ingest whose source timestamp is strictly older
than a stored row with the same key leaves that stored row unchanged. -/
theorem C3_ingest_dedup (platform platform_job_id : String)
    (p : IngestPayload) (nextId : Nat) (jobs : List DiscoveredJob) :
    ((∀ pl pid, keyCount pl pid jobs ≤ 1) →
      ∀ pl pid,
        keyCount pl pid (ingest platform platform_job_id p nextId jobs).2 ≤ 1) ∧
    ((∃ j ∈ jobs, j.platform = platform ∧
        j.platform_job_id = platform_job_id) →
      (ingest platform platform_job_id p nextId jobs).1 =
        IngestResult.updated ∧
      ((ingest platform platform_job_id p nextId jobs).2).length =
        jobs.length) ∧
    (∀ j ∈ jobs, j.platform = platform →
      j.platform_job_id = platform_job_id →
      p.discovered_at < j.discovered_at →
      mergeJob p j = j ∧
      j ∈ (ingest platform platform_job_id p nextId jobs).2) := by
  refine ⟨?_, ?_, ?_⟩
  · intro hinv pl pid
    by_cases hany : jobs.any (fun j => j.platform = platform ∧
        j.platform_job_id = platform_job_id) = true
    · unfold ingest
      rw [if_pos hany]
      rw [keyCount_map pl pid _ (fun j => by
        by_cases hj : j.platform = platform ∧
            j.platform_job_id = platform_job_id
        · rw [if_pos hj]
          exact mergeJob_key p j
        · rw [if_neg hj]
          exact ⟨rfl, rfl⟩)]
      exact hinv pl pid
    · unfold ingest
      rw [if_neg hany]
      rw [keyCount_append]
      have hnone : ∀ j ∈ jobs, ¬ (j.platform = platform ∧
          j.platform_job_id = platform_job_id) := by
        intro j hj hcontra
        exact hany (List.any_eq_true.mpr ⟨j, hj, by simp [hcontra]⟩)
      by_cases hkey : pl = platform ∧ pid = platform_job_id
      · obtain ⟨rfl, rfl⟩ := hkey
        have hzero : keyCount pl pid jobs = 0 := by
          unfold keyCount
          rw [List.length_eq_zero, List.filter_eq_nil_iff]
          intro j hj
          simpa using hnone j hj
        rw [hzero]
        simp [keyCount]
      · have hone : keyCount pl pid
            [DiscoveredJob.mk nextId platform platform_job_id p.title
              p.budget_min p.budget_max p.skills_required p.score p.status
              none p.discovered_at none] = 0 := by
          unfold keyCount
          rw [List.length_eq_zero, List.filter_eq_nil_iff]
          intro j hj
          simp only [List.mem_singleton] at hj
          subst hj
          simp only [decide_eq_true_eq]
          intro hcontra
          exact hkey ⟨hcontra.1.symm, hcontra.2.symm⟩
        rw [hone]
        simpa using hinv pl pid
  · rintro ⟨j, hj, hk1, hk2⟩
    have hany : jobs.any (fun j => j.platform = platform ∧
        j.platform_job_id = platform_job_id) = true :=
      List.any_eq_true.mpr ⟨j, hj, by simp [hk1, hk2]⟩
    unfold ingest
    rw [if_pos hany]
    exact ⟨rfl, List.length_map _ _⟩
  · intro j hj h1 h2 h3
    have hstale : mergeJob p j = j := by
      unfold mergeJob
      rw [if_pos h3]
    refine ⟨hstale, ?_⟩
    have hany : jobs.any (fun j => j.platform = platform ∧
        j.platform_job_id = platform_job_id) = true :=
      List.any_eq_true.mpr ⟨j, hj, by simp [h1, h2]⟩
    unfold ingest
    rw [if_pos hany]
    have hfix : (if j.platform = platform ∧
        j.platform_job_id = platform_job_id
        then mergeJob p j else j) = j := by
      rw [if_pos ⟨h1, h2⟩, hstale]
    exact hfix ▸ List.mem_map_of_mem _ hj

/-- Witness for C3 at concrete inputs: re-ingesting the key ("up", "x")
with an older source timestamp (5 < 10) reports `updated`, leaves the
stored row unchanged, and keeps the key unique. -/
theorem C3_ingest_dedup_witness :
    (ingest "up" "x"
      (IngestPayload.mk "New" none none [] none JobStatus.discovered 5) 99
      [DiscoveredJob.mk 5 "up" "x" "Old" none none [] none
        JobStatus.scored none 10 none]).1 = IngestResult.updated ∧
    mergeJob (IngestPayload.mk "New" none none [] none
        JobStatus.discovered 5)
      (DiscoveredJob.mk 5 "up" "x" "Old" none none [] none
        JobStatus.scored none 10 none) =
      DiscoveredJob.mk 5 "up" "x" "Old" none none [] none
        JobStatus.scored none 10 none ∧
    DiscoveredJob.mk 5 "up" "x" "Old" none none [] none
        JobStatus.scored none 10 none ∈
      (ingest "up" "x"
        (IngestPayload.mk "New" none none [] none JobStatus.discovered 5) 99
        [DiscoveredJob.mk 5 "up" "x" "Old" none none [] none
          JobStatus.scored none 10 none]).2 ∧
    keyCount "up" "x"
      (ingest "up" "x"
        (IngestPayload.mk "New" none none [] none JobStatus.discovered 5) 99
        [DiscoveredJob.mk 5 "up" "x" "Old" none none [] none
          JobStatus.scored none 10 none]).2 ≤ 1 := by
  have h := C3_ingest_dedup "up" "x"
    (IngestPayload.mk "New" none none [] none JobStatus.discovered 5) 99
    [DiscoveredJob.mk 5 "up" "x" "Old" none none [] none
      JobStatus.scored none 10 none]
  have h3 := h.2.2 (DiscoveredJob.mk 5 "up" "x" "Old" none none [] none
    JobStatus.scored none 10 none) (by decide) rfl rfl (by decide)
  exact ⟨(h.2.1 ⟨DiscoveredJob.mk 5 "up" "x" "Old" none none [] none
      JobStatus.scored none 10 none, by decide, rfl, rfl⟩).1,
    h3.1, h3.2,
    h.1 (fun pl pid => by
      unfold keyCount
      exact List.length_filter_le _ _) "up" "x"⟩

/-- C1: accepting a Proposal in one unit of work marks it accepted, moves
every other non-terminal Proposal of the same WorkItem to rejected,
creates exactly one new Contract referencing that WorkItem and Worker,
and moves the WorkItem to `won` with the Worker assigned.  The operation
is a pure function into `Except`, so a failing acceptance returns only an
error and no entity changes. -/
theorem C1_accept_cascade (pid : Nat) (db db2 : WorkDB) (p : Proposal)
    (hp : db.proposals.find? (fun q => q.id = pid) = some p)
    (hok : acceptProposal pid db = Except.ok db2) :
    ({ p with status := ProposalStatus.accepted } ∈ db2.proposals) ∧
    (∀ q ∈ db.proposals, q.job_id = p.job_id → q.id ≠ pid →
      proposalTerminal q.status = false →
      { q with status := ProposalStatus.rejected } ∈ db2.proposals) ∧
    ((db2.active_jobs.filter (fun c => c.discovered_job_id = p.job_id ∧
        c.agent_id = p.agent_id)).length =
      (db.active_jobs.filter (fun c => c.discovered_job_id = p.job_id ∧
        c.agent_id = p.agent_id)).length + 1) ∧
    (∀ x ∈ db2.jobs, x.id = p.job_id →
      x.status = JobStatus.won ∧ x.assigned_agent_id = some p.agent_id) := by
  have hpid : p.id = pid := by simpa using List.find?_some hp
  have hpm : p ∈ db.proposals := List.mem_of_find?_eq_some hp
  rcases hj : db.jobs.find? (fun j => j.id = p.job_id) with _ | j
  · unfold acceptProposal at hok
    rw [hp] at hok
    simp only [] at hok
    rw [hj] at hok
    split_ifs at hok
  · unfold acceptProposal at hok
    rw [hp] at hok
    simp only [] at hok
    rw [hj] at hok
    split_ifs at hok with hterm
    all_goals cases hok
    have hjid : j.id = p.job_id := by simpa using List.find?_some hj
    refine ⟨?_, ?_, ?_, ?_⟩
    · have hfp : (fun q => if q.id = pid
          then { q with status := ProposalStatus.accepted }
          else if q.job_id = p.job_id ∧ ¬ proposalTerminal q.status = true
            then { q with status := ProposalStatus.rejected } else q) p =
          { p with status := ProposalStatus.accepted } := by
        simp [hpid]
      exact hfp ▸ List.mem_map_of_mem _ hpm
    · intro q hq h1 h2 h3
      have hfq : (fun q => if q.id = pid
          then { q with status := ProposalStatus.accepted }
          else if q.job_id = p.job_id ∧ ¬ proposalTerminal q.status = true
            then { q with status := ProposalStatus.rejected } else q) q =
          { q with status := ProposalStatus.rejected } := by
        simp [h1, h2, h3]
      exact hfq ▸ List.mem_map_of_mem _ hq
    · simp only [List.filter_append, List.length_append]
      have hone : (List.filter
          (fun c => decide (c.discovered_job_id = p.job_id ∧
            c.agent_id = p.agent_id))
          [ActiveJob.mk db.nextContractId j.id p.agent_id (some pid)
            p.bid_amount 0 0 3 JobStatus.in_progress]).length = 1 := by
        simp [hjid]
      rw [hone]
    · intro x hx hxid
      rcases List.mem_map.mp hx with ⟨y, hy, rfl⟩
      by_cases hyid : y.id = j.id
      · rw [if_pos hyid]
        exact ⟨rfl, rfl⟩
      · rw [if_neg hyid] at hxid ⊢
        exact absurd (hxid.trans hjid.symm) hyid

/-- Witness for C1 at concrete inputs: accepting Proposal 1 (worker 7) of
WorkItem 10 marks it accepted, rejects sibling Proposal 2, and creates
exactly one Contract for (WorkItem 10, worker 7). -/
theorem C1_accept_cascade_witness :
    Proposal.mk 1 10 7 500 ProposalStatus.accepted ∈
      [Proposal.mk 1 10 7 500 ProposalStatus.accepted,
       Proposal.mk 2 10 8 400 ProposalStatus.rejected] ∧
    Proposal.mk 2 10 8 400 ProposalStatus.rejected ∈
      [Proposal.mk 1 10 7 500 ProposalStatus.accepted,
       Proposal.mk 2 10 8 400 ProposalStatus.rejected] ∧
    ([ActiveJob.mk 0 10 7 (some 1) 500 0 0 3 JobStatus.in_progress].filter
      (fun c => c.discovered_job_id = 10 ∧ c.agent_id = 7)).length =
      (([] : List ActiveJob).filter
        (fun c => c.discovered_job_id = 10 ∧ c.agent_id = 7)).length + 1 := by
  have h := C1_accept_cascade 1
    (WorkDB.mk
      [DiscoveredJob.mk 10 "up" "x" "T" none none [] none
        JobStatus.interviewing none 0 none]
      [Proposal.mk 1 10 7 500 ProposalStatus.submitted,
       Proposal.mk 2 10 8 400 ProposalStatus.submitted] [] 0)
    (WorkDB.mk
      [DiscoveredJob.mk 10 "up" "x" "T" none none [] none
        JobStatus.won (some 7) 0 none]
      [Proposal.mk 1 10 7 500 ProposalStatus.accepted,
       Proposal.mk 2 10 8 400 ProposalStatus.rejected]
      [ActiveJob.mk 0 10 7 (some 1) 500 0 0 3 JobStatus.in_progress] 1)
    (Proposal.mk 1 10 7 500 ProposalStatus.submitted)
    (by decide) (by rfl)
  exact ⟨h.1, h.2.1 (Proposal.mk 2 10 8 400 ProposalStatus.submitted)
    (by decide) rfl (by decide) (by decide), h.2.2.1⟩

/-- Folding additions of second components equals the accumulator plus
their sum. -/
theorem foldl_add_snd (a : Int) (l : List (Nat × Int)) :
    List.foldl (fun acc e => acc + e.2) a l = a + (l.map Prod.snd).sum := by
  induction l generalizing a with
  | nil => simp
  | cons x xs ih => simp [ih, add_assoc]

/-- The replay of a LedgerEntry sequence is the sum of its signed
amounts. -/
theorem replayNetProfit_eq_sum (entries : List (Nat × Int)) :
    replayNetProfit entries = (entries.map Prod.snd).sum := by
  unfold replayNetProfit
  simpa using foldl_add_snd 0 entries

/-- The aggregation invariant of the ledger state: the cached
`total_earnings` equals the sum of the recorded earning net amounts, and
every cost row belongs to the Worker. -/
def LedgerInv (db : LedgerDB) : Prop :=
  db.agent.total_earnings =
    (db.earnings.map (fun e => e.net_amount)).sum ∧
  ∀ c ∈ db.costs, c.agent_id = some db.agent.id

/-- Every ledger call preserves the aggregation invariant. -/
theorem ledgerInv_applyOp (db : LedgerDB) (op : LedgerOp)
    (h : LedgerInv db) : LedgerInv (applyLedgerOp db op) := by
  rcases op with ⟨c, g, pf, prf, cur, pl, t⟩ | ⟨c, cat, amt, cur, t⟩
  · unfold applyLedgerOp
    by_cases hn : g - pf - prf < 0
    · simp only [recordEarning, if_pos hn]
      exact h
    · simp only [recordEarning, if_neg hn]
      refine ⟨?_, ?_⟩
      · simp [h.1]
      · intro c2 hc2
        simpa using h.2 c2 hc2
  · unfold applyLedgerOp recordCost
    refine ⟨?_, ?_⟩
    · exact h.1
    · intro c2 hc2
      rcases List.mem_append.mp hc2 with hc2 | hc2
      · exact h.2 c2 hc2
      · simp only [List.mem_singleton] at hc2
        subst hc2
        rfl

/-- The aggregation invariant holds after any interleaving of ledger
calls from the fresh state. -/
theorem ledgerInv_runOps (agentId : Nat) (name : String)
    (ops : List LedgerOp) : LedgerInv (runLedgerOps agentId name ops) := by
  unfold runLedgerOps
  have hinit : LedgerInv (initLedgerDB agentId name) := by
    refine ⟨by simp [initLedgerDB], ?_⟩
    intro c hc
    simp [initLedgerDB] at hc
  generalize initLedgerDB agentId name = db0 at hinit ⊢
  induction ops generalizing db0 with
  | nil => exact hinit
  | cons op ops ih => exact ih _ (ledgerInv_applyOp db0 op hinit)

/-- Negating each cost amount negates the sum. -/
theorem costs_sum_neg (l : List Cost) :
    (l.map (fun c => -c.total_amount)).sum =
      -((l.map (fun c => c.total_amount)).sum) := by
  induction l with
  | nil => simp
  | cons c cs ih =>
      simp [ih, neg_add]
      omega

/-- With every cost owned by the Worker, the COALESCE'd cost subquery is
the plain sum of the cost amounts. -/
theorem agentCostSum_getD (costs : List Cost) (aid : Nat)
    (h : ∀ c ∈ costs, c.agent_id = some aid) :
    (agentCostSum costs aid).getD 0 =
      (costs.map (fun c => c.total_amount)).sum := by
  simp only [agentCostSum]
  rw [List.filter_eq_self.mpr (fun c hc => by simp [h c hc])]
  cases costs with
  | nil => simp
  | cons c cs => simp

/-- The signed sum of the ledger stream is earnings net minus costs. -/
theorem ledgerStream_sum (db : LedgerDB) :
    ((ledgerStream db).map Prod.snd).sum =
      (db.earnings.map (fun e => e.net_amount)).sum -
        (db.costs.map (fun c => c.total_amount)).sum := by
  unfold ledgerStream
  rw [List.map_append, List.sum_append, List.map_map, List.map_map]
  show ((db.earnings.map (fun e => e.net_amount)).sum +
    (db.costs.map (fun c => -c.total_amount)).sum) = _
  rw [costs_sum_neg]
  omega

/-- Sorting the ledger stream by timestamp leaves its signed sum
unchanged. -/
theorem ledgerStreamByTime_sum (db : LedgerDB) :
    ((ledgerStreamByTime db).map Prod.snd).sum =
      ((ledgerStream db).map Prod.snd).sum := by
  unfold ledgerStreamByTime
  exact List.Perm.sum_eq ((List.perm_insertionSort _ _).map Prod.snd)

/-- C7: for every finite interleaving of `recordEarning` and `recordCost`
calls from a fresh Worker, the cached `net_profit` column of the
`agent_performance_summary` view (`total_earnings` minus the Worker's
summed cost amounts, an empty cost set counting as zero) equals the value
recomputed by replaying all of the Worker's LedgerEntries in timestamp
order. -/
theorem C7_net_profit_refinement (agentId : Nat) (name : String)
    (ops : List LedgerOp) :
    (performanceSummaryRow (runLedgerOps agentId name ops).agent [] []
      (runLedgerOps agentId name ops).costs).net_profit =
    replayNetProfit (ledgerStreamByTime (runLedgerOps agentId name ops)) := by
  have hinv := ledgerInv_runOps agentId name ops
  rw [replayNetProfit_eq_sum, ledgerStreamByTime_sum, ledgerStream_sum]
  show (runLedgerOps agentId name ops).agent.total_earnings -
      (agentCostSum (runLedgerOps agentId name ops).costs
        (runLedgerOps agentId name ops).agent.id).getD 0 = _
  rw [agentCostSum_getD _ _ hinv.2, hinv.1]

/-- Along a legal WorkItem transition that is not the move to `won`, the
source and target statuses agree on whether a worker is assigned. -/
theorem wiLegal_assigned_agree :
    ∀ s t : JobStatus, wiLegal s t = true → t ≠ JobStatus.won →
      isAssignedStatus s = isAssignedStatus t := by decide

/-- One WorkItem transition preserves the assigned-agent invariant. -/
theorem wiTransition_preserves_invariant (w w2 : DiscoveredJob)
    (t : JobStatus) (actor : Nat) (hinv : wiInvariant w = true)
    (h : wiTransition t actor w = Except.ok w2) : wiInvariant w2 = true := by
  unfold wiTransition at h
  split_ifs at h with hl
  all_goals cases h
  simp only [wiInvariant, decide_eq_true_eq] at hinv ⊢
  by_cases ht : t = JobStatus.won
  · subst ht
    simp [wiAssign, isAssignedStatus]
  · simp only [wiAssign, if_neg ht]
    rw [hinv, wiLegal_assigned_agree w.status t hl ht]

/-- C9: in every WorkItem state reachable by the system's operations (a
fresh `discovered` row with no worker, then any sequence of legal
transitions) `assigned_agent` is set if and only if the status is one of
won, in_progress, delivered, completed, disputed; and every single legal
transition preserves this invariant. -/
theorem C9_assigned_agent_invariant (w : DiscoveredJob) :
    (WiReachable w → wiInvariant w = true) ∧
    (∀ (t : JobStatus) (actor : Nat) (w2 : DiscoveredJob),
      wiInvariant w = true → wiTransition t actor w = Except.ok w2 →
      wiInvariant w2 = true) := by
  constructor
  · intro h
    induction h with
    | init w h1 h2 => simp [wiInvariant, h1, h2, isAssignedStatus]
    | step w w2 t actor h hstep ih =>
        exact wiTransition_preserves_invariant w w2 t actor ih hstep
  · intro t actor w2 hinv h
    exact wiTransition_preserves_invariant w w2 t actor hinv h

/-- Witness for C9 at concrete inputs: the invariant holds for a fresh
discovered WorkItem and is preserved by its transition to `scored`, and
by the later transition to `won` which assigns the worker. -/
theorem C9_assigned_agent_invariant_witness :
    wiInvariant (DiscoveredJob.mk 1 "up" "x" "T" none none [] none
      JobStatus.discovered none 0 none) = true ∧
    wiInvariant (DiscoveredJob.mk 1 "up" "x" "T" none none [] none
      JobStatus.won (some 7) 0 none) = true := by
  constructor
  · exact (C9_assigned_agent_invariant (DiscoveredJob.mk 1 "up" "x" "T"
      none none [] none JobStatus.discovered none 0 none)).1
      (WiReachable.init _ rfl rfl)
  · exact (C9_assigned_agent_invariant (DiscoveredJob.mk 1 "up" "x" "T"
      none none [] none JobStatus.interviewing none 0 none)).2
      JobStatus.won 7 _ (by decide) (by rfl)
